import Mathlib

/-!
Verification of the picoclaw long-term-memory subsystem: cold storage of
conversation chunks (`pkg/agent/cold_storage.go`), the chunk retrieval tool
(`pkg/tools`, retrieve_chunk), the transcript formatter (`pkg/agent/instance.go`)
and the compression policy.  Go values are embedded shallowly: strings stay
`String`, `map` state becomes functions or association lists, the directory is
an association list kept sorted by file name (mirroring `os.ReadDir`'s sorted
listing), machine integers are `Int`/`Nat`, and fallible operations return
`Except`.
-/

namespace Picoclaw

/-- Modelled from the spec: `providers.Message` is declared outside the sources
at hand; spec section 3 gives it as `{role: string, content: string, ...}` and
section 6 fixes its on-disk JSON shape as an object with keys `role` and
`content`.  Extra fields are opaque to this subsystem and elided. -/
structure Message where
  role : String
  content : String
deriving DecidableEq, Repr

/-- Wall-clock timestamp, modelling Go `time.Time` to second granularity
(sub-second precision plays no role in any claim; real `time.Time` values are
calendar-normalized, so `month ≤ 12`, `day ≤ 31`, `hour ≤ 23`,
`minute ≤ 59`, `second ≤ 60`). -/
structure DateTime where
  year : Nat
  month : Nat
  day : Nat
  hour : Nat
  minute : Nat
  second : Nat
deriving DecidableEq, Repr

/-- ChunkRecord from cold_storage.go: the full archive record written to disk
as `<id>.json.gz`. -/
structure ChunkRecord where
  ID : String
  SessionKey : String
  MsgRange : Int × Int
  CreatedAt : DateTime
  Summary : String
  Messages : List Message
deriving DecidableEq, Repr

/-- ChunkRef from cold_storage.go: the lightweight in-memory reference used for
system prompt injection. -/
structure ChunkRef where
  ID : String
  Summary : String
deriving DecidableEq, Repr

/-! ### Decimal digits and fixed-width numeric rendering

Go renders timestamps through `time.Time.Format` reference layouts with
zero-padded fields; we build those strings from explicit digit characters so
that parsing them back is provable. -/

/-- The character for a single decimal digit. -/
def digitChar (d : Nat) : Char := "0123456789".data.getD d '0'

/-- Numeric value of a decimal digit character, if it is one. -/
def digitVal (c : Char) : Option Nat :=
  if c.isDigit then some (c.toNat - 48) else none

/-- Two zero-padded decimal digits (Go `%02d` for values below 100). -/
def pad2chars (n : Nat) : List Char := [digitChar (n / 10 % 10), digitChar (n % 10)]

/-- Four zero-padded decimal digits (Go's four-digit year field). -/
def pad4chars (n : Nat) : List Char :=
  [digitChar (n / 1000 % 10), digitChar (n / 100 % 10), digitChar (n / 10 % 10), digitChar (n % 10)]


/-- RFC 3339 rendering of a timestamp in UTC, as Go `time.Time.MarshalJSON`
emits for a UTC time with zero nanoseconds:
`YYYY-MM-DDTHH:MM:SSZ`. -/
def encodeDateTime (t : DateTime) : String :=
  ⟨pad4chars t.year ++ '-' :: pad2chars t.month ++ '-' :: pad2chars t.day ++
   'T' :: pad2chars t.hour ++ ':' :: pad2chars t.minute ++ ':' :: pad2chars t.second ++ ['Z']⟩

/-- Go `time.Time.Format` with layout `2006-01-02 15:04`
(year-month-day space hour:minute, all zero padded). -/
def formatTimestampMinute (t : DateTime) : String :=
  ⟨pad4chars t.year ++ '-' :: pad2chars t.month ++ '-' :: pad2chars t.day ++
   ' ' :: pad2chars t.hour ++ ':' :: pad2chars t.minute⟩

/-- Two decimal digit characters as a number. -/
def parse2 (c1 c2 : Char) : Option Nat := do
  pure ((← digitVal c1) * 10 + (← digitVal c2))

/-- Four decimal digit characters as a number. -/
def parse4 (c1 c2 c3 c4 : Char) : Option Nat := do
  pure ((((← digitVal c1) * 10 + (← digitVal c2)) * 10 + (← digitVal c3)) * 10 + (← digitVal c4))

/-- Parse the canonical RFC 3339 UTC shape produced by `encodeDateTime`.  Go's
`time.Time.UnmarshalJSON` accepts this shape (it accepts more — offsets and
fractional seconds — which never arise from our writer and are elided). -/
def parseDateTime (s : String) : Option DateTime :=
  let cs := s.data
  let at_ := fun i => cs.getD i ' '
  if cs.length = 20 ∧ at_ 4 = '-' ∧ at_ 7 = '-' ∧ at_ 10 = 'T' ∧
     at_ 13 = ':' ∧ at_ 16 = ':' ∧ at_ 19 = 'Z' then do
    let y ← parse4 (at_ 0) (at_ 1) (at_ 2) (at_ 3)
    let mo ← parse2 (at_ 5) (at_ 6)
    let d ← parse2 (at_ 8) (at_ 9)
    let h ← parse2 (at_ 11) (at_ 12)
    let mi ← parse2 (at_ 14) (at_ 15)
    let se ← parse2 (at_ 17) (at_ 18)
    pure ⟨y, mo, d, h, mi, se⟩
  else none

/-- A timestamp whose fields fit their fixed-width rendering.  Every value Go's
normalized `time.Time` can hold satisfies this (Go's RFC 3339 marshalling
additionally rejects years above 9999 outright). -/
def ValidTime (t : DateTime) : Prop :=
  t.year ≤ 9999 ∧ t.month < 100 ∧ t.day < 100 ∧ t.hour < 100 ∧ t.minute < 100 ∧ t.second < 100

instance (t : DateTime) : Decidable (ValidTime t) := by
  unfold ValidTime; infer_instance


/-! ### JSON values and the on-disk chunk encoding

`SaveChunk` serializes a `ChunkRecord` with `encoding/json` and gzips the
result; `LoadChunk` reverses both.  We model the JSON text as a JSON value
tree; the DEFLATE bit stream itself is an external library and is modelled as a
faithful wrapper (a gzip stream either decompresses to its payload or is
corrupt). -/

inductive Json where
  | null
  | boolean (b : Bool)
  | num (n : Int)
  | str (s : String)
  | arr (elems : List Json)
  | obj (fields : List (String × Json))

/-- First-match association-list lookup with propositional key equality
(Go map access / JSON object field access). -/
def alookup {α : Type} (k : String) : List (String × α) → Option α
  | [] => none
  | (k', v) :: t => if k = k' then some v else alookup k t

/-- Go `encoding/json` marshalling of a `providers.Message`
(tags `role`, `content`; spec section 6). -/
def encodeMessage (m : Message) : Json :=
  .obj [("role", .str m.role), ("content", .str m.content)]

/-- Go `encoding/json` marshalling of a `ChunkRecord` (tags from
cold_storage.go: `id`, `session_key`, `msg_range`, `created_at`, `summary`,
`messages`). -/
def encodeChunkRecord (r : ChunkRecord) : Json :=
  .obj [("id", .str r.ID), ("session_key", .str r.SessionKey),
        ("msg_range", .arr [.num r.MsgRange.1, .num r.MsgRange.2]),
        ("created_at", .str (encodeDateTime r.CreatedAt)),
        ("summary", .str r.Summary),
        ("messages", .arr (r.Messages.map encodeMessage))]

/-- Decoding a JSON value into a Go `string` struct field: an absent field or a
JSON null leaves the zero value, a string sets it, anything else is a decode
error. -/
def decodeStringField (fields : List (String × Json)) (k : String) : Option String :=
  match alookup k fields with
  | none => some ""
  | some .null => some ""
  | some (.str s) => some s
  | some _ => none

/-- Decoding a JSON value into a Go `int`: null leaves zero, a number sets it. -/
def decodeIntElem : Json → Option Int
  | .null => some 0
  | .num n => some n
  | _ => none

/-- Decoding into Go `[2]int`: extra JSON array elements are discarded, missing
ones leave zeros (the documented `encoding/json` array semantics); a non-array
is a decode error. -/
def decodeMsgRange : Option Json → Option (Int × Int)
  | none => some (0, 0)
  | some .null => some (0, 0)
  | some (.arr []) => some (0, 0)
  | some (.arr [a]) => do pure (← decodeIntElem a, 0)
  | some (.arr (a :: b :: _)) => do pure (← decodeIntElem a, ← decodeIntElem b)
  | some _ => none

/-- Decoding a JSON value into a `providers.Message`. -/
def decodeMessage : Json → Option Message
  | .null => some ⟨"", ""⟩
  | .obj fields => do
      let role ← decodeStringField fields "role"
      let content ← decodeStringField fields "content"
      pure ⟨role, content⟩
  | _ => none

/-- Element-wise decoding of a JSON array of messages. -/
def decodeMessages : List Json → Option (List Message)
  | [] => some []
  | j :: t => do pure ((← decodeMessage j) :: (← decodeMessages t))

/-- Decoding into the `Messages` slice: absent or null leaves a nil slice. -/
def decodeMessagesField : Option Json → Option (List Message)
  | none => some []
  | some .null => some []
  | some (.arr elems) => decodeMessages elems
  | some _ => none

/-- Decoding into the `CreatedAt` field: absent or null leaves Go's zero
`time.Time` (January 1, year 1, UTC). -/
def decodeCreatedAt : Option Json → Option DateTime
  | none => some ⟨1, 1, 1, 0, 0, 0⟩
  | some .null => some ⟨1, 1, 1, 0, 0, 0⟩
  | some (.str s) => parseDateTime s
  | some _ => none

/-- Go `encoding/json` decoding of a `ChunkRecord`: unknown fields are ignored,
absent fields keep their zero values, mistyped fields are errors. -/
def decodeChunkRecord : Json → Option ChunkRecord
  | .obj fields => do
      let id ← decodeStringField fields "id"
      let sessionKey ← decodeStringField fields "session_key"
      let msgRange ← decodeMsgRange (alookup "msg_range" fields)
      let createdAt ← decodeCreatedAt (alookup "created_at" fields)
      let summary ← decodeStringField fields "summary"
      let messages ← decodeMessagesField (alookup "messages" fields)
      pure ⟨id, sessionKey, msgRange, createdAt, summary, messages⟩
  | _ => none


/-! ### The storage directory and the ColdStorage state

The storage directory is an association list from file name to entry, kept
sorted by name with unique keys: `os.ReadDir` reports entries sorted by file
name, and creating a file (or renaming onto a name) replaces any previous
entry of that name. -/

/-- The content of a file in the storage directory: either a complete gzip
stream holding a JSON document, or bytes that fail gzip decompression or JSON
decoding (also used for a partially written temporary file). -/
inductive FileData where
  | gzJson (j : Json)
  | corrupt

/-- A directory entry: a regular file or a subdirectory. -/
inductive DirEntry where
  | file (data : FileData)
  | subdir

/-- The directory listing, name-sorted with unique names. -/
abbrev Dir := List (String × DirEntry)

/-- Lexicographic strict order on character lists (executable). -/
def charListLt : List Char → List Char → Bool
  | [], [] => false
  | [], _ :: _ => true
  | _ :: _, [] => false
  | a :: as, b :: bs =>
    if a.toNat < b.toNat then true
    else if b.toNat < a.toNat then false
    else charListLt as bs

/-- The file-name order `os.ReadDir` sorts by (code-point order; identical to
byte order for the ASCII names this storage uses). -/
def strLt (a b : String) : Bool := charListLt a.data b.data

/-- Create or replace the file `k`, keeping the listing name-sorted. -/
def dirInsert (k : String) (v : DirEntry) : Dir → Dir
  | [] => [(k, v)]
  | (k', v') :: rest =>
    if strLt k k' then (k, v) :: (k', v') :: rest
    else if k = k' then (k, v) :: rest
    else (k', v') :: dirInsert k v rest

/-- Remove the file `k` (`os.Remove` of a present name). -/
def dirErase (k : String) : Dir → Dir
  | [] => []
  | (k', v') :: t => if k' = k then dirErase k t else (k', v') :: dirErase k t

/-- Go `strings.HasSuffix`. -/
def strHasSuffix (s suffix : String) : Bool :=
  decide (s.data.reverse.take suffix.data.length = suffix.data.reverse)

/-- ColdStorage from cold_storage.go: the storage directory plus the in-memory
index (`counters` and `refs` maps, both guarded by one mutex — state under the
lock is modelled as plain functions). -/
structure ColdStorage where
  dir : Dir
  counters : String → Int
  refs : String → List ChunkRef

/-- The empty storage: a freshly created directory and empty maps. -/
def emptyStorage (d : Dir) : ColdStorage := ⟨d, fun _ => 0, fun _ => []⟩

/-- Failure injection for the OS calls `SaveChunk` makes, in program order:
`os.CreateTemp`, `gz.Write`, `gz.Close`, `tmpFile.Sync`, `tmpFile.Close`,
`os.Rename`.  A `true` field makes that call fail. -/
structure IOFailures where
  createTemp : Bool
  gzipWrite : Bool
  gzipClose : Bool
  fsync : Bool
  fclose : Bool
  rename : Bool
deriving DecidableEq, Repr

/-- The all-success injection. -/
def ioOk : IOFailures := ⟨false, false, false, false, false, false⟩

/-- SaveChunk from cold_storage.go: marshal the record as JSON, gzip it into a
fresh temporary file, sync, close, rename to `<id>.json.gz`, then append a
`ChunkRef` to the in-memory index.  The deferred cleanup removes the temporary
file on every path that does not reach the rename.  `tmpName` is the fresh name
`os.CreateTemp` picks.  Notes kept from the Go sources: `json.Marshal` fails
exactly when `time.Time` marshalling does, i.e. for a year outside 0–9999; and
`os.Rename` replaces an existing destination file (it fails if the destination
is an existing directory). -/
def SaveChunk (io : IOFailures) (tmpName : String) (r : ChunkRecord) (cs : ColdStorage) :
    Except String Unit × ColdStorage :=
  if 9999 < r.CreatedAt.year then (.error "cold_storage: marshal", cs)
  else if io.createTemp then (.error "cold_storage: create temp", cs)
  else
    let d0 := dirInsert tmpName (.file .corrupt) cs.dir
    if io.gzipWrite then (.error "cold_storage: gzip write", { cs with dir := dirErase tmpName d0 })
    else if io.gzipClose then (.error "cold_storage: gzip close", { cs with dir := dirErase tmpName d0 })
    else
      let d1 := dirInsert tmpName (.file (.gzJson (encodeChunkRecord r))) d0
      if io.fsync then (.error "sync failed", { cs with dir := dirErase tmpName d1 })
      else if io.fclose then (.error "close failed", { cs with dir := dirErase tmpName d1 })
      else if io.rename then (.error "cold_storage: rename", { cs with dir := dirErase tmpName d1 })
      else
        match alookup (r.ID ++ ".json.gz") cs.dir with
        | some .subdir => (.error "cold_storage: rename", { cs with dir := dirErase tmpName d1 })
        | _ =>
          (.ok (),
           { cs with
             dir := dirInsert (r.ID ++ ".json.gz") (.file (.gzJson (encodeChunkRecord r)))
                      (dirErase tmpName d1),
             refs := fun k => if k = r.SessionKey then cs.refs k ++ [⟨r.ID, r.Summary⟩]
                              else cs.refs k })

/-- Decoding the bytes of a chunk file: gzip decompression then JSON decoding
(`loadChunkLocked`'s read path after `os.Open` succeeded). -/
def decodeFileData : FileData → Option ChunkRecord
  | .corrupt => none
  | .gzJson j => decodeChunkRecord j

/-- LoadChunk / loadChunkLocked from cold_storage.go: open `<id>.json.gz`,
build a gzip reader over it, JSON-decode the stream.  Opening a missing name
fails at `os.Open`; an existing directory opens but fails as a gzip stream. -/
def LoadChunk (id : String) (cs : ColdStorage) : Except String ChunkRecord :=
  match alookup (id ++ ".json.gz") cs.dir with
  | none => .error ("cold_storage: open " ++ id)
  | some .subdir => .error ("cold_storage: gzip reader " ++ id)
  | some (.file data) =>
    match decodeFileData data with
    | none => .error ("cold_storage: decode " ++ id)
    | some r => .ok r

/-- ListRefs from cold_storage.go (the defensive copy is the same list
value). -/
def ListRefs (sessionKey : String) (cs : ColdStorage) : List ChunkRef :=
  cs.refs sessionKey

/-- One directory entry's effect during `RebuildIndex`: subdirectories and
names without the `.json.gz` suffix are skipped, files that fail to load are
logged and skipped, loadable chunks bump the session counter and append a
ref. -/
def rebuildStep (acc : (String → Int) × (String → List ChunkRef)) (entry : String × DirEntry) :
    (String → Int) × (String → List ChunkRef) :=
  match entry.2 with
  | .subdir => acc
  | .file data =>
    if strHasSuffix entry.1 ".json.gz" then
      match decodeFileData data with
      | none => acc
      | some record =>
        (fun k => if k = record.SessionKey then acc.1 k + 1 else acc.1 k,
         fun k => if k = record.SessionKey then acc.2 k ++ [⟨record.ID, record.Summary⟩]
                  else acc.2 k)
    else acc

/-- RebuildIndex from cold_storage.go: reset both maps, scan the directory in
`os.ReadDir` order (sorted by name), and fold every entry through
`rebuildStep`.  The only error path is `os.ReadDir` itself failing. -/
def RebuildIndex (readDirFails : Bool) (cs : ColdStorage) : Except String ColdStorage :=
  if readDirFails then .error "read dir failed"
  else
    let res := cs.dir.foldl rebuildStep (fun _ => 0, fun _ => [])
    .ok { cs with counters := res.1, refs := res.2 }

/-- NewColdStorage from cold_storage.go: create the directory and rebuild the
index; a rebuild error is logged and leaves the fresh empty maps. -/
def NewColdStorage (readDirFails : Bool) (d : Dir) : ColdStorage :=
  match RebuildIndex readDirFails (emptyStorage d) with
  | .ok cs => cs
  | .error _ => emptyStorage d

/-- The file name `SaveChunk` commits a record to. -/
def gzName (r : ChunkRecord) : String := r.ID ++ ".json.gz"

/-- The committed directory entry holding a record. -/
def chunkFile (r : ChunkRecord) : DirEntry := .file (.gzJson (encodeChunkRecord r))

/-- A name matching `os.CreateTemp`'s `chunk-*.tmp` pattern, distinct for
records with distinct IDs. -/
def saveTmpName (r : ChunkRecord) : String := "chunk-" ++ r.ID ++ ".tmp"

/-- A writer session: save a list of records in order, each through
`SaveChunk` with no injected OS failure. -/
def saveAll (rs : List ChunkRecord) (cs : ColdStorage) : ColdStorage :=
  rs.foldl (fun c r => (SaveChunk ioOk (saveTmpName r) r c).2) cs

/-- The directory entries `RebuildIndex` does not skip: regular files named
`*.json.gz` whose content loads and decodes. -/
def loadableEntry (p : String × DirEntry) : Bool :=
  match p.2 with
  | .subdir => false
  | .file d => strHasSuffix p.1 ".json.gz" && (decodeFileData d).isSome

/-- The ref a directory entry contributes to session `s` during a rebuild,
if any. -/
def entryRef (s : String) (p : String × DirEntry) : Option ChunkRef :=
  match p.2 with
  | .subdir => none
  | .file d =>
    if strHasSuffix p.1 ".json.gz" then
      match decodeFileData d with
      | some record =>
        if record.SessionKey = s then some ⟨record.ID, record.Summary⟩ else none
      | none => none
    else none


/-! ### SHA-256 (crypto/sha256) and chunk ID generation

`NextChunkID` hashes `sessionKey + ":" + counter + ":" + nanoseconds` with
SHA-256 and keeps the first 8 hex characters.  FIPS 180-4 SHA-256 over byte
lists, with 32-bit words as `Nat` reduced mod 2^32. -/

/-- Truncate to a 32-bit word. -/
def w32 (n : Nat) : Nat := n % 4294967296

/-- Rotate a 32-bit word right by `b` bits. -/
def rotr32 (x b : Nat) : Nat := w32 ((x >>> b) ||| (x <<< (32 - b)))

/-- Bitwise complement of a 32-bit word. -/
def not32 (x : Nat) : Nat := x ^^^ 4294967295

def shaCh (x y z : Nat) : Nat := (x &&& y) ^^^ (not32 x &&& z)

def shaMaj (x y z : Nat) : Nat := (x &&& y) ^^^ (x &&& z) ^^^ (y &&& z)

def bigSigma0 (x : Nat) : Nat := rotr32 x 2 ^^^ rotr32 x 13 ^^^ rotr32 x 22

def bigSigma1 (x : Nat) : Nat := rotr32 x 6 ^^^ rotr32 x 11 ^^^ rotr32 x 25

def smallSigma0 (x : Nat) : Nat := rotr32 x 7 ^^^ rotr32 x 18 ^^^ (x >>> 3)

def smallSigma1 (x : Nat) : Nat := rotr32 x 17 ^^^ rotr32 x 19 ^^^ (x >>> 10)

/-- The 64 SHA-256 round constants (FIPS 180-4, written in decimal). -/
def sha256K : List Nat :=
  [1116352408, 1899447441, 3049323471, 3921009573,
   961987163, 1508970993, 2453635748, 2870763221,
   3624381080, 310598401, 607225278, 1426881987,
   1925078388, 2162078206, 2614888103, 3248222580,
   3835390401, 4022224774, 264347078, 604807628,
   770255983, 1249150122, 1555081692, 1996064986,
   2554220882, 2821834349, 2952996808, 3210313671,
   3336571891, 3584528711, 113926993, 338241895,
   666307205, 773529912, 1294757372, 1396182291,
   1695183700, 1986661051, 2177026350, 2456956037,
   2730485921, 2820302411, 3259730800, 3345764771,
   3516065817, 3600352804, 4094571909, 275423344,
   430227734, 506948616, 659060556, 883997877,
   958139571, 1322822218, 1537002063, 1747873779,
   1955562222, 2024104815, 2227730452, 2361852424,
   2428436474, 2756734187, 3204031479, 3329325298]

/-- The eight SHA-256 working variables. -/
structure Hash8 where
  a : Nat
  b : Nat
  c : Nat
  d : Nat
  e : Nat
  f : Nat
  g : Nat
  hh : Nat
deriving Repr

/-- The SHA-256 initial hash value (FIPS 180-4, written in decimal). -/
def sha256H0 : Hash8 :=
  ⟨1779033703, 3144134277, 1013904242, 2773480762,
   1359893119, 2600822924, 528734635, 1541459225⟩

/-- One SHA-256 round, consuming one constant/schedule-word pair. -/
def shaRound (st : Hash8) (kw : Nat × Nat) : Hash8 :=
  let t1 := w32 (st.hh + bigSigma1 st.e + shaCh st.e st.f st.g + kw.1 + kw.2)
  let t2 := w32 (bigSigma0 st.a + shaMaj st.a st.b st.c)
  ⟨w32 (t1 + t2), st.a, st.b, st.c, w32 (st.d + t1), st.e, st.f, st.g⟩

/-- The first 16 rounds: consume the block words directly, keeping a window of
the most recent schedule words (most recent first). -/
def shaRounds16 : List Nat → List Nat → Hash8 → List Nat → Hash8 × List Nat
  | k :: ks, w :: ws, st, recent => shaRounds16 ks ws (shaRound st (k, w)) ((w :: recent).take 16)
  | _, _, st, recent => (st, recent)

/-- The remaining 48 rounds: each schedule word is
`σ1 W[i-2] + W[i-7] + σ0 W[i-15] + W[i-16]` over the rolling window. -/
def shaRounds48 : List Nat → Hash8 → List Nat → Hash8
  | [], st, _ => st
  | k :: ks, st, recent =>
    let wn := w32 (smallSigma1 (recent.getD 1 0) + recent.getD 6 0 +
                   smallSigma0 (recent.getD 14 0) + recent.getD 15 0)
    shaRounds48 ks (shaRound st (k, wn)) ((wn :: recent).take 16)

/-- Compress one 16-word block into the running hash. -/
def processBlock (H : Hash8) (block : List Nat) : Hash8 :=
  let p := shaRounds16 (sha256K.take 16) block H []
  let st := shaRounds48 (sha256K.drop 16) p.1 p.2
  ⟨w32 (H.a + st.a), w32 (H.b + st.b), w32 (H.c + st.c), w32 (H.d + st.d),
   w32 (H.e + st.e), w32 (H.f + st.f), w32 (H.g + st.g), w32 (H.hh + st.hh)⟩

/-- Big-endian 32-bit words from bytes. -/
def bytesToWords : List Nat → List Nat
  | b0 :: b1 :: b2 :: b3 :: rest => (((b0 * 256 + b1) * 256 + b2) * 256 + b3) :: bytesToWords rest
  | _ => []

/-- Split a word list into 16-word blocks (`fuel` bounds the recursion). -/
def toBlocks : Nat → List Nat → List (List Nat)
  | 0, _ => []
  | _, [] => []
  | fuel + 1, ws => ws.take 16 :: toBlocks fuel (ws.drop 16)

/-- SHA-256 padding: a 0x80 byte, zeros to 56 mod 64, and the bit length as
eight big-endian bytes. -/
def sha256Pad (msg : List Nat) : List Nat :=
  let len := msg.length
  let padZeros := (64 - (len + 9) % 64) % 64
  let bitLen := len * 8
  msg ++ 0x80 :: List.replicate padZeros 0 ++
    [bitLen >>> 56 % 256, bitLen >>> 48 % 256, bitLen >>> 40 % 256, bitLen >>> 32 % 256,
     bitLen >>> 24 % 256, bitLen >>> 16 % 256, bitLen >>> 8 % 256, bitLen % 256]

/-- The four big-endian bytes of a 32-bit word. -/
def wordBytes (w : Nat) : List Nat :=
  [w >>> 24 % 256, w >>> 16 % 256, w >>> 8 % 256, w % 256]

/-- The 32 digest bytes of a final hash state. -/
def digestBytes (H : Hash8) : List Nat :=
  wordBytes H.a ++ wordBytes H.b ++ wordBytes H.c ++ wordBytes H.d ++
  wordBytes H.e ++ wordBytes H.f ++ wordBytes H.g ++ wordBytes H.hh

/-- SHA-256 of a byte list. -/
def sha256Bytes (msg : List Nat) : List Nat :=
  let padded := sha256Pad msg
  let words := bytesToWords padded
  digestBytes ((toBlocks words.length words).foldl processBlock sha256H0)

/-- UTF-8 encoding of one character (Go `[]byte(string)`). -/
def utf8EncodeChar (c : Char) : List Nat :=
  let n := c.toNat
  if n < 0x80 then [n]
  else if n < 0x800 then [0xC0 ||| (n >>> 6), 0x80 ||| (n &&& 0x3F)]
  else if n < 0x10000 then
    [0xE0 ||| (n >>> 12), 0x80 ||| ((n >>> 6) &&& 0x3F), 0x80 ||| (n &&& 0x3F)]
  else
    [0xF0 ||| (n >>> 18), 0x80 ||| ((n >>> 12) &&& 0x3F), 0x80 ||| ((n >>> 6) &&& 0x3F),
     0x80 ||| (n &&& 0x3F)]

/-- UTF-8 bytes of a string. -/
def utf8Bytes (s : String) : List Nat :=
  s.data.foldr (fun c acc => utf8EncodeChar c ++ acc) []

/-- Lowercase hex digit characters. -/
def hexDigitChar (n : Nat) : Char := "0123456789abcdef".data.getD n '0'

/-- Two lowercase hex characters of a byte (`fmt.Sprintf "%x"` per byte). -/
def byteToHex (b : Nat) : List Char := [hexDigitChar (b / 16), hexDigitChar (b % 16)]

/-- Lowercase hex string of a byte list. -/
def bytesToHexStr (bs : List Nat) : String :=
  ⟨bs.foldr (fun b acc => byteToHex b ++ acc) []⟩

/-- NextChunkID from cold_storage.go: bump the session's counter, hash
`sessionKey + ":" + counter + ":" + nanoseconds`, return the first 8 hex
characters (first 4 digest bytes).  `nowUnixNano` is the value
`time.Now().UnixNano()` returns at the call. -/
def NextChunkID (cs : ColdStorage) (sessionKey : String) (nowUnixNano : Nat) :
    String × ColdStorage :=
  let counter := cs.counters sessionKey + 1
  let cs' := { cs with counters := fun k => if k = sessionKey then counter else cs.counters k }
  let raw := sessionKey ++ ":" ++ toString counter ++ ":" ++ toString nowUnixNano
  (bytesToHexStr ((sha256Bytes (utf8Bytes raw)).take 4), cs')

/-! ### The transcript formatter (instance.go) -/

/-- formatChunkTranscript from instance.go.  The header separator in the Go
source is the byte sequence `c3 a2 e2 82 ac e2 80 9d`, i.e. the three
characters U+00E2, U+20AC, U+201D (a double-encoded em-dash), written here with
the same code points. -/
def formatChunkTranscript (r : ChunkRecord) : String :=
  "[Archived chunk " ++ r.ID ++ " â€” " ++
    formatTimestampMinute r.CreatedAt ++ "]\n\n" ++
  String.join (r.Messages.map (fun m => m.role ++ ": " ++ m.content ++ "\n\n"))

/-! ### The tools package: ToolResult and the retrieve_chunk tool -/

/-- ToolResult from the tools package.  `Err` is the underlying Go `error`
(`none` models a nil error, `some msg` a non-nil one). -/
structure ToolResult where
  ForLLM : String
  ForUser : String
  Silent : Bool
  IsError : Bool
  Async : Bool
  Err : Option String
  Ephemeral : Bool
deriving DecidableEq, Repr

/-- NewToolResult: a basic result with default flags. -/
def NewToolResult (forLLM : String) : ToolResult :=
  { ForLLM := forLLM, ForUser := "", Silent := false, IsError := false, Async := false,
    Err := none, Ephemeral := false }

/-- ErrorResult: an error result (`IsError = true`, nothing else set). -/
def ErrorResult (message : String) : ToolResult :=
  { ForLLM := message, ForUser := "", Silent := false, IsError := true, Async := false,
    Err := none, Ephemeral := false }

/-- WithError: attach the underlying error for logging. -/
def ToolResult.withErr (tr : ToolResult) (e : String) : ToolResult := { tr with Err := some e }

/-- A dynamically typed Go `any` value, as found in a tool argument map. -/
inductive GoVal where
  | str (s : String)
  | num (n : Int)
  | boolean (b : Bool)
  | nullv
deriving DecidableEq, Repr

/-- The Go type assertion `v.(string)` in its two-result form: a non-string
(or absent) value yields the zero value `""`. -/
def goStringAssert : Option GoVal → String
  | some (.str s) => s
  | some (.num _) => ""
  | some (.boolean _) => ""
  | some .nullv => ""
  | none => ""

/-- Go `unicode.IsSpace` on the Latin-1 range (the rare higher White_Space
code points are elided). -/
def goIsSpace (c : Char) : Bool :=
  c = ' ' || c = '\t' || c = '\n' || c = '\x0B' || c = '\x0C' || c = '\r' ||
  c = '\u0085' || c = '\u00A0'

/-- Go `strings.TrimSpace`. -/
def trimSpace (s : String) : String :=
  ⟨((s.data.dropWhile goIsSpace).reverse.dropWhile goIsSpace).reverse⟩

/-- RetrieveChunkTool.Execute.  `retrieveFn` is the injected retrieval
function; `args` is the argument map.  The success branch of the Go source
builds `&ToolResult{ForLLM: transcript}` — every other field keeps its zero
value. -/
def RetrieveChunkTool.Execute (retrieveFn : String → Except String String)
    (args : List (String × GoVal)) : ToolResult :=
  let chunkID := trimSpace (goStringAssert (alookup "chunk_id" args))
  if chunkID = "" then (ErrorResult "chunk_id is required").withErr "missing chunk_id"
  else
    match retrieveFn chunkID with
    | .error e => (ErrorResult ("chunk " ++ chunkID ++ " not found: " ++ e)).withErr e
    | .ok transcript =>
      { ForLLM := transcript, ForUser := "", Silent := false, IsError := false, Async := false,
        Err := none, Ephemeral := false }

/-- The closure instance.go registers for the tool: load the chunk from this
agent's cold storage and render it. -/
def retrieveClosure (cs : ColdStorage) (id : String) : Except String String :=
  (LoadChunk id cs).map formatChunkTranscript

/-- The chunk record of `TestRetrieveChunkTool_Ephemeral` (cold_storage_test.go):
id `abc12345`, session `session1`, two messages. -/
def testRecordEphemeral : ChunkRecord :=
  ⟨"abc12345", "session1", (0, 0), ⟨2024, 1, 1, 12, 0, 0⟩, "Test summary",
   [⟨"user", "Hello"⟩, ⟨"assistant", "Hi there"⟩]⟩

/-- The chunk record of `TestFormatChunkTranscript` (cold_storage_test.go):
id `test1234`, created 2024-01-01T12:00:00Z, two messages. -/
def testRecordTranscript : ChunkRecord :=
  ⟨"test1234", "", (0, 0), ⟨2024, 1, 1, 12, 0, 0⟩, "Test summary",
   [⟨"user", "Hello"⟩, ⟨"assistant", "Hi there"⟩]⟩

/-- The storage state after archiving `testRecordEphemeral`, as the ephemeral
test does before invoking the tool. -/
def ephemeralTestStorage : ColdStorage :=
  (SaveChunk ioOk "chunk-a.tmp" testRecordEphemeral (emptyStorage [])).2

/-- The tool result the ephemeral test inspects: `retrieve_chunk` executed on
`chunk_id = "abc12345"` against `ephemeralTestStorage`. -/
def ephemeralTestResult : ToolResult :=
  RetrieveChunkTool.Execute (retrieveClosure ephemeralTestStorage)
    [("chunk_id", GoVal.str "abc12345")]

deriving instance DecidableEq for Except

/-- A directory in which every entry is a regular file named `*.json.gz` — the
shape `SaveChunk` alone produces. -/
def goodDir (d : Dir) : Prop :=
  ∀ p ∈ d, strHasSuffix p.1 ".json.gz" = true ∧ ∃ fd, p.2 = DirEntry.file fd

/-- The refs a writer accumulates for session `s` out of the records `rs` it
saved, in order. -/
def refsOf (rs : List ChunkRecord) (s : String) : List ChunkRef :=
  (rs.filter (fun r => decide (r.SessionKey = s))).map (fun r => ⟨r.ID, r.Summary⟩)

/-- A record with a `tool` message, as in the tool-role preservation test. -/
def testRecordToolRole : ChunkRecord :=
  ⟨"test1234", "session1", (0, 5), ⟨2024, 1, 1, 12, 0, 0⟩, "Test summary",
   [⟨"user", "Hello"⟩, ⟨"assistant", "Hi there"⟩, ⟨"tool", "Tool result"⟩]⟩

/-- First record of the id-collision scenario: id `test1234`. -/
def collisionRecordA : ChunkRecord :=
  ⟨"test1234", "session1", (0, 0), ⟨2024, 1, 1, 12, 0, 0⟩, "Summary 1", [⟨"user", "Hello"⟩]⟩

/-- Second record of the id-collision scenario: the same id `test1234`,
different summary and messages. -/
def collisionRecordB : ChunkRecord :=
  ⟨"test1234", "session1", (0, 0), ⟨2024, 1, 1, 12, 0, 0⟩, "Summary 2", [⟨"user", "World"⟩]⟩

/-- Storage holding `collisionRecordA`'s chunk file: `test1234.json.gz`
exists on disk. -/
def collisionStorage : ColdStorage :=
  (SaveChunk ioOk "chunk-a.tmp" collisionRecordA (emptyStorage [])).2

/-! ### The compression policy -/

namespace SpecModel

/-- Modelled from the spec: the compression policy / agent loop that
orchestrates summarization (spec section 4.4) is not among the sources at hand
— only its tests (`rolling_summary_test.go`) are — so its state and steps are
taken from the spec's words. -/
structure SessionState where
  history : List Picoclaw.Message
  rollingSummary : String
deriving DecidableEq, Repr

/-- Modelled from the spec: configuration keys consumed by the policy
(spec section 6). -/
structure CompressionConfig where
  chunkSizeTokens : Nat
  minChunkMessages : Nat
  continuityBuffer : Nat
deriving DecidableEq, Repr

/-- Modelled from the spec: "The token estimator is a cheap approximation
(e.g. characters ÷ 4)". -/
def estimateTokens (history : List Picoclaw.Message) : Nat :=
  (history.foldl (fun acc m => acc + m.content.length) 0) / 4

/-- Modelled from the spec: `append_rolling_summary` "appends a blank line and
the new entry to the existing string (or sets it as the first entry if
empty)" (spec section 4.3). -/
def appendRollingSummary (existing entry : String) : String :=
  if existing = "" then entry else existing ++ "\n\n" ++ entry

/-- Modelled from the spec: the rolling-summary entry
`"[YYYY-MM-DD HH:MM]\n<summary>"` (spec section 4.4 step 4). -/
def rollingEntry (now : Picoclaw.DateTime) (summary : String) : String :=
  "[" ++ Picoclaw.formatTimestampMinute now ++ "]\n" ++ summary

/-- Modelled from the spec: the summarization input retains only `user` and
`assistant` messages of the selected prefix, concatenated as
`"<role>: <content>\n\n"` segments (spec section 4.4). -/
def summarizationInput (selected : List Picoclaw.Message) : String :=
  String.join ((selected.filter (fun m => m.role == "user" || m.role == "assistant")).map
    (fun m => m.role ++ ": " ++ m.content ++ "\n\n"))

/-- Modelled from the spec: one compression attempt (spec section 4.4).
Trigger on token pressure; select the prefix leaving `continuityBuffer`
messages; call the provider (its outcome is `providerOutcome`); then the
failure-atomic commit: archive the chunk (outcome `archiveWrite`, only
meaningful when the archive is configured), and only after a successful write
append the rolling-summary entry and truncate history.  Provider errors,
archive-write errors and an unconfigured archive all leave the session state
untouched; every failure is logged and swallowed, so the attempt itself always
reports success to the enclosing turn (the returned `Bool`). -/
def runCompression (cfg : CompressionConfig) (archiveConfigured : Bool)
    (providerOutcome : Except String String) (archiveWrite : Except String Unit)
    (now : Picoclaw.DateTime) (st : SessionState) : SessionState × Bool :=
  if estimateTokens st.history ≤ cfg.chunkSizeTokens then (st, true)
  else if st.history.length < cfg.minChunkMessages + cfg.continuityBuffer then (st, true)
  else
    let endIdx := st.history.length - cfg.continuityBuffer
    match providerOutcome with
    | .error _ => (st, true)
    | .ok summary =>
      if archiveConfigured then
        match archiveWrite with
        | .error _ => (st, true)
        | .ok _ =>
          (⟨st.history.drop endIdx,
            appendRollingSummary st.rollingSummary (rollingEntry now summary)⟩, true)
      else (st, true)

end SpecModel


/-! ### Supporting lemmas -/

theorem digitVal_digitChar : ∀ d < 10, digitVal (digitChar d) = some d := by decide

theorem parseDateTime_encodeDateTime (t : DateTime) (h : ValidTime t) :
    parseDateTime (encodeDateTime t) = some t := by
  obtain ⟨hy, hmo, hd, hh, hmi, hs⟩ := h
  have e1 := digitVal_digitChar (t.year / 1000 % 10) (Nat.mod_lt _ (by norm_num))
  have e2 := digitVal_digitChar (t.year / 100 % 10) (Nat.mod_lt _ (by norm_num))
  have e3 := digitVal_digitChar (t.year / 10 % 10) (Nat.mod_lt _ (by norm_num))
  have e4 := digitVal_digitChar (t.year % 10) (Nat.mod_lt _ (by norm_num))
  have e5 := digitVal_digitChar (t.month / 10 % 10) (Nat.mod_lt _ (by norm_num))
  have e6 := digitVal_digitChar (t.month % 10) (Nat.mod_lt _ (by norm_num))
  have e7 := digitVal_digitChar (t.day / 10 % 10) (Nat.mod_lt _ (by norm_num))
  have e8 := digitVal_digitChar (t.day % 10) (Nat.mod_lt _ (by norm_num))
  have e9 := digitVal_digitChar (t.hour / 10 % 10) (Nat.mod_lt _ (by norm_num))
  have e10 := digitVal_digitChar (t.hour % 10) (Nat.mod_lt _ (by norm_num))
  have e11 := digitVal_digitChar (t.minute / 10 % 10) (Nat.mod_lt _ (by norm_num))
  have e12 := digitVal_digitChar (t.minute % 10) (Nat.mod_lt _ (by norm_num))
  have e13 := digitVal_digitChar (t.second / 10 % 10) (Nat.mod_lt _ (by norm_num))
  have e14 := digitVal_digitChar (t.second % 10) (Nat.mod_lt _ (by norm_num))
  simp only [parseDateTime, encodeDateTime, pad4chars, pad2chars, List.cons_append,
    List.nil_append, List.length_cons, List.length_nil, List.getD_cons_zero,
    List.getD_cons_succ]
  norm_num
  simp only [parse4, parse2, e1, e2, e3, e4, e5, e6, e7, e8, e9, e10, e11, e12, e13, e14,
    Option.bind_some, Option.some_bind, Option.pure_def, Option.bind_eq_bind]
  have hrec : ∀ n : Nat, n < 100 → n / 10 % 10 * 10 + n % 10 = n := by
    intro n hn; omega
  have hrec4 : ∀ n : Nat, n ≤ 9999 →
      ((n / 1000 % 10 * 10 + n / 100 % 10) * 10 + n / 10 % 10) * 10 + n % 10 = n := by
    intro n hn; omega
  simp [hrec _ hmo, hrec _ hd, hrec _ hh, hrec _ hmi, hrec _ hs, hrec4 _ hy]

theorem decodeMessage_encodeMessage (m : Message) :
    decodeMessage (encodeMessage m) = some m := rfl

theorem decodeMessages_map_encodeMessage (ms : List Message) :
    decodeMessages (ms.map encodeMessage) = some ms := by
  induction ms with
  | nil => rfl
  | cons m t ih => simp [decodeMessages, decodeMessage_encodeMessage, ih]

theorem decodeChunkRecord_encodeChunkRecord (r : ChunkRecord) (h : ValidTime r.CreatedAt) :
    decodeChunkRecord (encodeChunkRecord r) = some r := by
  simp [decodeChunkRecord, encodeChunkRecord, decodeStringField, alookup, decodeMsgRange,
    decodeIntElem, decodeCreatedAt, parseDateTime_encodeDateTime r.CreatedAt h,
    decodeMessagesField, decodeMessages_map_encodeMessage]

/-! ### Association-list lemmas -/

theorem charListLt_irrefl (l : List Char) : charListLt l l = false := by
  induction l with
  | nil => rfl
  | cons a t ih => simp [charListLt, ih]

theorem strLt_irrefl (k : String) : strLt k k = false := charListLt_irrefl k.data

theorem alookup_dirInsert_self (k : String) (v : DirEntry) (l : Dir) :
    alookup k (dirInsert k v l) = some v := by
  induction l with
  | nil => simp [dirInsert, alookup]
  | cons p t ih =>
    obtain ⟨k', v'⟩ := p
    cases h1 : strLt k k'
    · by_cases h2 : k = k'
      · simp [dirInsert, h1, h2, alookup, strLt_irrefl]
      · simp [dirInsert, h1, h2, alookup, ih]
    · simp [dirInsert, h1, alookup]

theorem alookup_dirInsert_ne (k k' : String) (v : DirEntry) (l : Dir) (h : k' ≠ k) :
    alookup k' (dirInsert k v l) = alookup k' l := by
  induction l with
  | nil => simp [dirInsert, alookup, h]
  | cons p t ih =>
    obtain ⟨k0, v0⟩ := p
    cases h1 : strLt k k0
    · by_cases h2 : k = k0
      · subst h2; simp [dirInsert, h1, alookup, h]
      · by_cases h3 : k' = k0 <;> simp [dirInsert, h1, h2, alookup, h3, ih]
    · simp [dirInsert, h1, alookup, h]

theorem dirErase_of_alookup_none (k : String) (l : Dir) (h : alookup k l = none) :
    dirErase k l = l := by
  induction l with
  | nil => rfl
  | cons p t ih =>
    obtain ⟨k', v'⟩ := p
    by_cases h1 : k = k'
    · simp [alookup, h1] at h
    · simp [alookup, h1] at h
      have h1' : k' ≠ k := fun hk => h1 hk.symm
      simp [dirErase, h1', ih h]

theorem dirErase_dirInsert_self (k : String) (v : DirEntry) (l : Dir)
    (h : alookup k l = none) : dirErase k (dirInsert k v l) = l := by
  induction l with
  | nil => simp [dirInsert, dirErase]
  | cons p t ih =>
    obtain ⟨k', v'⟩ := p
    by_cases h1 : k = k'
    · simp [alookup, h1] at h
    · simp [alookup, h1] at h
      have h1' : k' ≠ k := fun hk => h1 hk.symm
      cases h2 : strLt k k'
      · simp [dirInsert, h2, h1, dirErase, h1', ih h]
      · simp [dirInsert, h2, dirErase, h1', dirErase_of_alookup_none k t h]

theorem dirInsert_dirInsert_same (k : String) (v v' : DirEntry) (l : Dir) :
    dirInsert k v (dirInsert k v' l) = dirInsert k v l := by
  induction l with
  | nil => simp [dirInsert, strLt_irrefl]
  | cons p t ih =>
    obtain ⟨k0, v0⟩ := p
    cases h1 : strLt k k0
    · by_cases h2 : k = k0
      · simp [dirInsert, h1, h2, strLt_irrefl]
      · simp [dirInsert, h1, h2, ih]
    · simp [dirInsert, h1, strLt_irrefl]
theorem mem_wordBytes_lt {b w : Nat} (h : b ∈ wordBytes w) : b < 256 := by
  simp [wordBytes] at h
  rcases h with rfl | rfl | rfl | rfl <;> omega

theorem digestBytes_length (H : Hash8) : (digestBytes H).length = 32 := by
  simp [digestBytes, wordBytes]

theorem mem_digestBytes_lt {b : Nat} {H : Hash8} (h : b ∈ digestBytes H) : b < 256 := by
  simp only [digestBytes, List.mem_append] at h
  rcases h with ((((((h | h) | h) | h) | h) | h) | h) | h <;> exact mem_wordBytes_lt h

theorem sha256Bytes_length (msg : List Nat) : (sha256Bytes msg).length = 32 :=
  digestBytes_length _

theorem mem_sha256Bytes_lt {b : Nat} {msg : List Nat} (h : b ∈ sha256Bytes msg) : b < 256 :=
  mem_digestBytes_lt h

theorem hexDigitChar_mem : ∀ n < 16, hexDigitChar n ∈ "0123456789abcdef".data := by decide

theorem hexChars_spec (bs : List Nat) (hb : ∀ b ∈ bs, b < 256) :
    (bs.foldr (fun b acc => byteToHex b ++ acc) []).length = 2 * bs.length ∧
    ∀ c ∈ bs.foldr (fun b acc => byteToHex b ++ acc) [], c ∈ "0123456789abcdef".data := by
  induction bs with
  | nil => simp
  | cons b t ih =>
    have hb' : b < 256 := hb b (by simp)
    obtain ⟨ih1, ih2⟩ := ih (fun x hx => hb x (by simp [hx]))
    refine ⟨?_, ?_⟩
    · have h2 : (byteToHex b).length = 2 := rfl
      simp only [List.foldr_cons, List.length_append, List.length_cons, ih1, h2]
      ring
    · intro c hc
      simp only [List.foldr_cons, List.mem_append] at hc
      rcases hc with hc | hc
      · simp only [byteToHex, List.mem_cons, List.not_mem_nil, or_false] at hc
        rcases hc with rfl | rfl
        · exact hexDigitChar_mem _ (by omega)
        · exact hexDigitChar_mem _ (by omega)
      · exact ih2 c hc

theorem bytesToHexStr_spec (bs : List Nat) (hb : ∀ b ∈ bs, b < 256) :
    (bytesToHexStr bs).length = 2 * bs.length ∧
    ∀ c ∈ (bytesToHexStr bs).data, c ∈ "0123456789abcdef".data :=
  hexChars_spec bs hb

theorem saveChunk_error_state (io : IOFailures) (tmp : String) (r : ChunkRecord)
    (cs : ColdStorage) (hfresh : alookup tmp cs.dir = none) (m : String)
    (herr : (SaveChunk io tmp r cs).1 = Except.error m) : (SaveChunk io tmp r cs).2 = cs := by
  have e0 : dirErase tmp (dirInsert tmp (.file .corrupt) cs.dir) = cs.dir :=
    dirErase_dirInsert_self _ _ _ hfresh
  have e1 : dirErase tmp (dirInsert tmp (.file (.gzJson (encodeChunkRecord r)))
      (dirInsert tmp (.file .corrupt) cs.dir)) = cs.dir := by
    rw [dirInsert_dirInsert_same]
    exact dirErase_dirInsert_self _ _ _ hfresh
  unfold SaveChunk at herr ⊢
  split_ifs at herr ⊢ <;> simp [e0, e1]
  rcases halt : alookup (r.ID ++ ".json.gz") cs.dir with _ | e
  · simp [halt] at herr
  · cases e
    · simp [halt] at herr
    · simp [halt, e1]

theorem saveChunk_ok_state (io : IOFailures) (tmp : String) (r : ChunkRecord)
    (cs : ColdStorage) (hfresh : alookup tmp cs.dir = none)
    (hok : (SaveChunk io tmp r cs).1 = Except.ok ()) :
    (SaveChunk io tmp r cs).2 =
      { cs with
        dir := dirInsert (r.ID ++ ".json.gz") (.file (.gzJson (encodeChunkRecord r))) cs.dir,
        refs := fun k => if k = r.SessionKey then cs.refs k ++ [⟨r.ID, r.Summary⟩]
                         else cs.refs k } := by
  have e1 : dirErase tmp (dirInsert tmp (.file (.gzJson (encodeChunkRecord r)))
      (dirInsert tmp (.file .corrupt) cs.dir)) = cs.dir := by
    rw [dirInsert_dirInsert_same]
    exact dirErase_dirInsert_self _ _ _ hfresh
  unfold SaveChunk at hok ⊢
  split_ifs at hok ⊢
  rcases halt : alookup (r.ID ++ ".json.gz") cs.dir with _ | e
  · simp [halt, e1]
  · cases e
    · simp [halt, e1]
    · simp [halt] at hok

theorem saveChunk_ok_dir (io : IOFailures) (tmp : String) (r : ChunkRecord)
    (cs : ColdStorage) (hok : (SaveChunk io tmp r cs).1 = Except.ok ()) :
    ∃ d : Dir, (SaveChunk io tmp r cs).2.dir =
      dirInsert (r.ID ++ ".json.gz") (.file (.gzJson (encodeChunkRecord r))) d := by
  unfold SaveChunk at hok ⊢
  split_ifs at hok ⊢
  rcases halt : alookup (r.ID ++ ".json.gz") cs.dir with _ | e
  · simp [halt]
  · cases e
    · simp [halt]
    · simp [halt] at hok

theorem saveChunk_ok_conditions (tmp : String) (r : ChunkRecord) (cs : ColdStorage)
    (hyear : r.CreatedAt.year ≤ 9999)
    (hnsd : alookup (r.ID ++ ".json.gz") cs.dir ≠ some DirEntry.subdir) :
    (SaveChunk ioOk tmp r cs).1 = Except.ok () := by
  unfold SaveChunk
  have hy : ¬ 9999 < r.CreatedAt.year := by omega
  rcases halt : alookup (r.ID ++ ".json.gz") cs.dir with _ | e
  · simp [hy, ioOk, halt]
  · cases e
    · simp [hy, ioOk, halt]
    · exact absurd halt hnsd

/-! ### Claim theorems -/

/-- C1: compression is failure-atomic — on a provider error, an archive-write
error, or an unconfigured archive, the session's rolling summary and message
history are unchanged from their pre-attempt values, and the failure is
swallowed so the enclosing turn still succeeds. -/
theorem compression_failure_is_atomic (cfg : SpecModel.CompressionConfig)
    (archiveConfigured : Bool) (prov : Except String String) (aw : Except String Unit)
    (now : DateTime) (st : SpecModel.SessionState)
    (h : (∃ e, prov = .error e) ∨ (∃ e, aw = .error e) ∨ archiveConfigured = false) :
    (SpecModel.runCompression cfg archiveConfigured prov aw now st).1.rollingSummary =
      st.rollingSummary ∧
    (SpecModel.runCompression cfg archiveConfigured prov aw now st).1.history = st.history ∧
    (SpecModel.runCompression cfg archiveConfigured prov aw now st).2 = true := by
  unfold SpecModel.runCompression
  rcases h with ⟨e, rfl⟩ | ⟨e, rfl⟩ | rfl
  · split_ifs <;> simp_all
  · cases prov with
    | error e' => split_ifs <;> simp_all
    | ok s => split_ifs <;> simp_all
  · cases prov with
    | error e' => split_ifs <;> simp_all
    | ok s => split_ifs <;> simp_all

/-- Witness for C1 at the values of `TestRollingSummary_EdgeCase_LLMFailure`:
threshold 1 token, three messages of history, provider fails. -/
theorem compression_failure_is_atomic_witness :
    (SpecModel.runCompression ⟨1, 2, 1⟩ true (Except.error "LLM unavailable") (Except.ok ())
      ⟨2026, 10, 11, 12, 0, 0⟩
      ⟨[⟨"user", "Should not be summarized"⟩, ⟨"assistant", "Agreed"⟩, ⟨"user", "Trigger"⟩],
       ""⟩).1.rollingSummary = "" ∧
    (SpecModel.runCompression ⟨1, 2, 1⟩ true (Except.error "LLM unavailable") (Except.ok ())
      ⟨2026, 10, 11, 12, 0, 0⟩
      ⟨[⟨"user", "Should not be summarized"⟩, ⟨"assistant", "Agreed"⟩, ⟨"user", "Trigger"⟩],
       ""⟩).1.history =
      [⟨"user", "Should not be summarized"⟩, ⟨"assistant", "Agreed"⟩, ⟨"user", "Trigger"⟩] ∧
    (SpecModel.runCompression ⟨1, 2, 1⟩ true (Except.error "LLM unavailable") (Except.ok ())
      ⟨2026, 10, 11, 12, 0, 0⟩
      ⟨[⟨"user", "Should not be summarized"⟩, ⟨"assistant", "Agreed"⟩, ⟨"user", "Trigger"⟩],
       ""⟩).2 = true :=
  compression_failure_is_atomic ⟨1, 2, 1⟩ true (Except.error "LLM unavailable") (Except.ok ())
    ⟨2026, 10, 11, 12, 0, 0⟩
    ⟨[⟨"user", "Should not be summarized"⟩, ⟨"assistant", "Agreed"⟩, ⟨"user", "Trigger"⟩], ""⟩
    (Or.inl ⟨"LLM unavailable", rfl⟩)

/-- C10: for every argument map where `chunk_id` is absent, non-string, or a
string that trims to empty, `Execute` returns the `chunk_id is required` error
result (with `IsError = true`), and the injected retrieval function is not
consulted (the result is the same for every retrieval function). -/
theorem execute_requires_chunk_id (fn : String → Except String String)
    (args : List (String × GoVal))
    (h : match alookup "chunk_id" args with
         | none => True
         | some (.str s) => trimSpace s = ""
         | some _ => True) :
    RetrieveChunkTool.Execute fn args =
      (ErrorResult "chunk_id is required").withErr "missing chunk_id" ∧
    (RetrieveChunkTool.Execute fn args).ForLLM = "chunk_id is required" ∧
    (RetrieveChunkTool.Execute fn args).IsError = true ∧
    ∀ g, RetrieveChunkTool.Execute fn args = RetrieveChunkTool.Execute g args := by
  have htrim : trimSpace "" = "" := rfl
  have hid : trimSpace (goStringAssert (alookup "chunk_id" args)) = "" := by
    rcases halt : alookup "chunk_id" args with _ | v
    · simp [goStringAssert, htrim]
    · rw [halt] at h
      cases v with
      | str s => simpa [goStringAssert] using h
      | num n => simp [goStringAssert, htrim]
      | boolean b => simp [goStringAssert, htrim]
      | nullv => simp [goStringAssert, htrim]
  refine ⟨?_, ?_, ?_, ?_⟩ <;>
    simp [RetrieveChunkTool.Execute, hid, ErrorResult, ToolResult.withErr]

/-- Witness for C10: a `chunk_id` bound to the number 3 (a failed type
assertion). -/
theorem execute_requires_chunk_id_witness :
    RetrieveChunkTool.Execute (fun _ => Except.ok "x") [("chunk_id", GoVal.num 3)] =
      (ErrorResult "chunk_id is required").withErr "missing chunk_id" ∧
    (RetrieveChunkTool.Execute (fun _ => Except.ok "x") [("chunk_id", GoVal.num 3)]).ForLLM =
      "chunk_id is required" ∧
    (RetrieveChunkTool.Execute (fun _ => Except.ok "x") [("chunk_id", GoVal.num 3)]).IsError =
      true ∧
    ∀ g, RetrieveChunkTool.Execute (fun _ => Except.ok "x") [("chunk_id", GoVal.num 3)] =
      RetrieveChunkTool.Execute g [("chunk_id", GoVal.num 3)] :=
  execute_requires_chunk_id (fun _ => Except.ok "x") [("chunk_id", GoVal.num 3)]
    (by exact trivial)

/-- C2: the claim states that a successful `retrieve_chunk` execution returns
the transcript with `Ephemeral = true` and `Silent = true`; the success branch
of `RetrieveChunkTool.Execute` actually builds `&ToolResult{ForLLM: transcript}`,
leaving both flags `false` (the repository's own test
`TestRetrieveChunkTool_Ephemeral` asserts they are `true`, so the code
contradicts its test).  Evaluated at the test's own input: the execution
succeeds, `ForLLM` is the rendered transcript, and both flags are `false`. -/
theorem execute_success_is_not_ephemeral_silent :
    ephemeralTestResult.IsError = false ∧
    ephemeralTestResult.Err = none ∧
    ephemeralTestResult.ForLLM =
      formatChunkTranscript testRecordEphemeral ∧
    ephemeralTestResult.Ephemeral = false ∧
    ephemeralTestResult.Silent = false := by
  decide

/-- C9: the claim states the transcript header uses the em-dash U+2014; the
format string in `formatChunkTranscript` (instance.go) actually contains the
double-encoded bytes U+00E2 U+20AC U+201D, so the output never contains
U+2014 (the repository's own test `TestFormatChunkTranscript` expects the
U+2014 header, so the code contradicts its test).  Evaluated at the test's
record: the full output, and the absence of any U+2014 character. -/
theorem formatChunkTranscript_header_not_emdash :
    formatChunkTranscript testRecordTranscript =
      "[Archived chunk test1234 â€” 2024-01-01 12:00]\n\n" ++
      "user: Hello\n\nassistant: Hi there\n\n" ∧
    (formatChunkTranscript testRecordTranscript).data.contains '—' = false := by
  decide

/-- C4 (amended): every ID `NextChunkID` returns is a string of exactly 8
lowercase hexadecimal characters, for every session key, counter state and
timestamp.  (Pairwise distinctness of successive IDs does not hold — see the
counterexample — so only the format half survives.) -/
theorem nextChunkID_format (cs : ColdStorage) (sk : String) (nanos : Nat) :
    (NextChunkID cs sk nanos).1.length = 8 ∧
    ∀ c ∈ (NextChunkID cs sk nanos).1.data, c ∈ "0123456789abcdef".data := by
  have h4 : ((sha256Bytes (utf8Bytes
      (sk ++ ":" ++ toString (cs.counters sk + 1) ++ ":" ++ toString nanos))).take 4).length
      = 4 := by
    rw [List.length_take, sha256Bytes_length]
    decide
  have hb : ∀ b ∈ (sha256Bytes (utf8Bytes
      (sk ++ ":" ++ toString (cs.counters sk + 1) ++ ":" ++ toString nanos))).take 4,
      b < 256 :=
    fun b hbm => mem_sha256Bytes_lt (List.mem_of_mem_take hbm)
  obtain ⟨hl, hc⟩ := bytesToHexStr_spec _ hb
  exact ⟨by rw [show (NextChunkID cs sk nanos).1 = bytesToHexStr _ from rfl, hl, h4],
         fun c hcm => hc c hcm⟩

set_option maxRecDepth 40000 in
/-- C4 counterexample: two successive `NextChunkID` calls for session `"s"`
(counters 1 and 2) with increasing wall-clock nanosecond readings that return
the SAME id (`a1bbadf0`): the first 32 digest bits of
`sha256 "s:1:1760000000000227241"` and `sha256 "s:2:1760000000000307578"`
coincide, so pairwise distinctness of up-to-1000 successive IDs fails. -/
theorem nextChunkID_collision :
    (NextChunkID (emptyStorage []) "s" 1760000000000227241).1 =
      (NextChunkID (NextChunkID (emptyStorage []) "s" 1760000000000227241).2 "s"
        1760000000000307578).1 ∧
    (1760000000000227241 : Nat) ≤ 1760000000000307578 := by
  constructor
  · decide
  · omega

/-- C3: save-then-load round trip — whenever `SaveChunk r` succeeds,
`LoadChunk r.ID` on the resulting storage succeeds and returns a record equal
to `r` field-for-field (ID, SessionKey, MsgRange, CreatedAt, Summary, and the
full message list, `tool` roles included).  `ValidTime` asks the `CreatedAt`
fields to fit their fixed-width rendering, which every normalized Go
`time.Time` does. -/
theorem saveChunk_loadChunk_roundtrip (io : IOFailures) (tmp : String) (r : ChunkRecord)
    (cs : ColdStorage) (hv : ValidTime r.CreatedAt)
    (hok : (SaveChunk io tmp r cs).1 = Except.ok ()) :
    LoadChunk r.ID (SaveChunk io tmp r cs).2 = Except.ok r := by
  obtain ⟨d, hd⟩ := saveChunk_ok_dir io tmp r cs hok
  unfold LoadChunk
  rw [hd, alookup_dirInsert_self]
  simp [decodeFileData, decodeChunkRecord_encodeChunkRecord r hv]

/-- Witness for C3 at a record carrying a `tool` message (the tool-role
preservation scenario). -/
theorem saveChunk_loadChunk_roundtrip_witness :
    ValidTime testRecordToolRole.CreatedAt ∧
    (SaveChunk ioOk "chunk-a.tmp" testRecordToolRole (emptyStorage [])).1 = Except.ok () ∧
    LoadChunk testRecordToolRole.ID
      (SaveChunk ioOk "chunk-a.tmp" testRecordToolRole (emptyStorage [])).2 =
      Except.ok testRecordToolRole :=
  ⟨by decide, by decide,
   saveChunk_loadChunk_roundtrip ioOk "chunk-a.tmp" testRecordToolRole (emptyStorage [])
     (by decide) (by decide)⟩

/-- C5: SaveChunk commits by rename and is atomic on failure — for a fresh
temporary name, every failing run returns an error and leaves the storage
exactly as before (the temporary file is removed, the refs index and counters
untouched), and a successful run commits the file under `<id>.json.gz` and
appends `{ID, Summary}` to `refs[SessionKey]` (and nothing else). -/
theorem saveChunk_commit_by_rename (io : IOFailures) (tmp : String) (r : ChunkRecord)
    (cs : ColdStorage) (hfresh : alookup tmp cs.dir = none) :
    ((∃ m, (SaveChunk io tmp r cs).1 = Except.error m) → (SaveChunk io tmp r cs).2 = cs) ∧
    ((SaveChunk io tmp r cs).1 = Except.ok () →
      (SaveChunk io tmp r cs).2.dir =
        dirInsert (r.ID ++ ".json.gz") (.file (.gzJson (encodeChunkRecord r))) cs.dir ∧
      (SaveChunk io tmp r cs).2.refs r.SessionKey = cs.refs r.SessionKey ++ [⟨r.ID, r.Summary⟩] ∧
      (∀ k, k ≠ r.SessionKey → (SaveChunk io tmp r cs).2.refs k = cs.refs k) ∧
      (SaveChunk io tmp r cs).2.counters = cs.counters) := by
  constructor
  · rintro ⟨m, hm⟩
    exact saveChunk_error_state io tmp r cs hfresh m hm
  · intro hok
    rw [saveChunk_ok_state io tmp r cs hfresh hok]
    refine ⟨rfl, by simp, fun k hk => by simp [hk], rfl⟩

/-- Witness for C5: an injected `gz.Write` failure on an empty storage. -/
theorem saveChunk_commit_by_rename_witness :
    ((∃ m, (SaveChunk ⟨false, true, false, false, false, false⟩ "chunk-w.tmp"
        collisionRecordA (emptyStorage [])).1 = Except.error m) →
      (SaveChunk ⟨false, true, false, false, false, false⟩ "chunk-w.tmp"
        collisionRecordA (emptyStorage [])).2 = emptyStorage []) ∧
    ((SaveChunk ⟨false, true, false, false, false, false⟩ "chunk-w.tmp"
        collisionRecordA (emptyStorage [])).1 = Except.ok () →
      (SaveChunk ⟨false, true, false, false, false, false⟩ "chunk-w.tmp"
        collisionRecordA (emptyStorage [])).2.dir =
        dirInsert (collisionRecordA.ID ++ ".json.gz")
          (.file (.gzJson (encodeChunkRecord collisionRecordA))) (emptyStorage []).dir ∧
      (SaveChunk ⟨false, true, false, false, false, false⟩ "chunk-w.tmp"
        collisionRecordA (emptyStorage [])).2.refs collisionRecordA.SessionKey =
        (emptyStorage []).refs collisionRecordA.SessionKey ++
          [⟨collisionRecordA.ID, collisionRecordA.Summary⟩] ∧
      (∀ k, k ≠ collisionRecordA.SessionKey →
        (SaveChunk ⟨false, true, false, false, false, false⟩ "chunk-w.tmp"
          collisionRecordA (emptyStorage [])).2.refs k = (emptyStorage []).refs k) ∧
      (SaveChunk ⟨false, true, false, false, false, false⟩ "chunk-w.tmp"
        collisionRecordA (emptyStorage [])).2.counters = (emptyStorage []).counters) :=
  saveChunk_commit_by_rename ⟨false, true, false, false, false, false⟩ "chunk-w.tmp"
    collisionRecordA (emptyStorage []) rfl

/-- C6 counterexample: with `test1234.json.gz` already on disk
(`collisionStorage`), saving `collisionRecordB` under the same id is NOT
detected as a rename failure — `os.Rename` replaces the existing file, so
`SaveChunk` returns success and the chunk file now holds the new record. -/
theorem saveChunk_collision_not_detected :
    (SaveChunk ioOk "chunk-b.tmp" collisionRecordB collisionStorage).1 = Except.ok () ∧
    LoadChunk "test1234"
      (SaveChunk ioOk "chunk-b.tmp" collisionRecordB collisionStorage).2 =
      Except.ok collisionRecordB := by
  constructor
  · decide
  · decide

/-- C6 (amended): if `<id>.json.gz` already exists as a regular file, a save of
a new chunk with the same id succeeds — the rename silently replaces the
existing file (POSIX rename semantics, as documented for `os.Rename`) and a
second ref for the same id is appended; no error is reported and no retry
happens. -/
theorem saveChunk_overwrites_existing (tmp : String) (r : ChunkRecord) (cs : ColdStorage)
    (hfresh : alookup tmp cs.dir = none)
    (hyear : r.CreatedAt.year ≤ 9999)
    (hfile : ∃ fd, alookup (r.ID ++ ".json.gz") cs.dir = some (DirEntry.file fd)) :
    (SaveChunk ioOk tmp r cs).1 = Except.ok () ∧
    alookup (r.ID ++ ".json.gz") (SaveChunk ioOk tmp r cs).2.dir =
      some (DirEntry.file (.gzJson (encodeChunkRecord r))) ∧
    (SaveChunk ioOk tmp r cs).2.refs r.SessionKey =
      cs.refs r.SessionKey ++ [⟨r.ID, r.Summary⟩] := by
  obtain ⟨fd, hfd⟩ := hfile
  have hok := saveChunk_ok_conditions tmp r cs hyear (by rw [hfd]; simp)
  refine ⟨hok, ?_, ?_⟩
  · rw [saveChunk_ok_state ioOk tmp r cs hfresh hok]
    exact alookup_dirInsert_self _ _ _
  · rw [saveChunk_ok_state ioOk tmp r cs hfresh hok]
    simp

/-- Witness for the amended C6 at the concrete collision scenario. -/
theorem saveChunk_overwrites_existing_witness :
    (SaveChunk ioOk "chunk-b.tmp" collisionRecordB collisionStorage).1 = Except.ok () ∧
    alookup (collisionRecordB.ID ++ ".json.gz")
      (SaveChunk ioOk "chunk-b.tmp" collisionRecordB collisionStorage).2.dir =
      some (DirEntry.file (.gzJson (encodeChunkRecord collisionRecordB))) ∧
    (SaveChunk ioOk "chunk-b.tmp" collisionRecordB collisionStorage).2.refs
      collisionRecordB.SessionKey =
      collisionStorage.refs collisionRecordB.SessionKey ++
        [⟨collisionRecordB.ID, collisionRecordB.Summary⟩] :=
  saveChunk_overwrites_existing "chunk-b.tmp" collisionRecordB collisionStorage
    rfl (by decide) ⟨.gzJson (encodeChunkRecord collisionRecordA), rfl⟩

theorem rebuildStep_skip (acc : (String → Int) × (String → List ChunkRef))
    (p : String × DirEntry) (hp : loadableEntry p = false) : rebuildStep acc p = acc := by
  obtain ⟨name, e⟩ := p
  cases e with
  | subdir => rfl
  | file d =>
    simp only [loadableEntry, Bool.and_eq_false_iff] at hp
    unfold rebuildStep
    rcases hp with hp | hp
    · simp [hp]
    · cases hsuf : strHasSuffix name ".json.gz"
      · simp [hsuf]
      · have hnone : decodeFileData d = none := by
          cases hdec : decodeFileData d
          · rfl
          · rw [hdec] at hp; simp at hp
        simp [hsuf, hnone]

theorem foldl_rebuildStep_filter (l : Dir) (acc : (String → Int) × (String → List ChunkRef)) :
    l.foldl rebuildStep acc = (l.filter loadableEntry).foldl rebuildStep acc := by
  induction l generalizing acc with
  | nil => rfl
  | cons p t ih =>
    cases hp : loadableEntry p
    · simp only [List.foldl_cons, List.filter_cons, hp, rebuildStep_skip acc p hp]
      exact ih acc
    · simp only [List.foldl_cons, List.filter_cons, hp, if_pos]
      exact ih (rebuildStep acc p)

/-- C7: `RebuildIndex` is robust — for every storage-directory content it
returns success (an individual bad entry never aborts it), and the resulting
index is exactly the fold over the loadable entries: subdirectories, names not
ending in `.json.gz`, and files that fail gzip decompression or JSON decoding
are all skipped while every remaining loadable chunk is indexed. -/
theorem rebuildIndex_robust (cs : ColdStorage) :
    RebuildIndex false cs =
      Except.ok { cs with
        counters := ((cs.dir.filter loadableEntry).foldl rebuildStep
          (fun _ => 0, fun _ => [])).1,
        refs := ((cs.dir.filter loadableEntry).foldl rebuildStep
          (fun _ => 0, fun _ => [])).2 } := by
  unfold RebuildIndex
  rw [if_neg (by simp)]
  rw [foldl_rebuildStep_filter]

theorem alookup_some_mem {α : Type} (k : String) (v : α) (l : List (String × α))
    (h : alookup k l = some v) : (k, v) ∈ l := by
  induction l with
  | nil => simp [alookup] at h
  | cons p t ih =>
    obtain ⟨k', v'⟩ := p
    by_cases hk : k = k'
    · subst hk
      simp [alookup] at h
      subst h
      exact List.mem_cons_self _ _
    · simp [alookup, hk] at h
      exact List.mem_cons_of_mem _ (ih h)

theorem mem_dirInsert {p : String × DirEntry} {k : String} {v : DirEntry} {l : Dir}
    (h : p ∈ dirInsert k v l) : p = (k, v) ∨ p ∈ l := by
  induction l with
  | nil => simpa [dirInsert] using h
  | cons q t ih =>
    obtain ⟨k', v'⟩ := q
    cases h1 : strLt k k' with
    | false =>
      by_cases h2 : k = k'
      · rw [show dirInsert k v ((k', v') :: t) = (k, v) :: t by
          simp [dirInsert, h1, h2, strLt_irrefl]] at h
        rcases List.mem_cons.mp h with h | h
        · exact Or.inl h
        · exact Or.inr (List.mem_cons_of_mem _ h)
      · rw [show dirInsert k v ((k', v') :: t) = (k', v') :: dirInsert k v t by
          simp [dirInsert, h1, h2]] at h
        rcases List.mem_cons.mp h with h | h
        · exact Or.inr (by simp [h])
        · rcases ih h with h' | h'
          · exact Or.inl h'
          · exact Or.inr (List.mem_cons_of_mem _ h')
    | true =>
      rw [show dirInsert k v ((k', v') :: t) = (k, v) :: (k', v') :: t by
        simp [dirInsert, h1]] at h
      rcases List.mem_cons.mp h with h | h
      · exact Or.inl h
      · exact Or.inr h

theorem strHasSuffix_append (a b : String) : strHasSuffix (a ++ b) b = true := by
  unfold strHasSuffix
  rw [String.data_append, List.reverse_append]
  rw [show b.data.length = b.data.reverse.length by simp]
  rw [List.take_left]
  simp

theorem saveTmpName_not_gz (r : ChunkRecord) :
    strHasSuffix (saveTmpName r) ".json.gz" = false := by
  have hd : (saveTmpName r).data.reverse =
      'p' :: 'm' :: 't' :: '.' :: (("chunk-" ++ r.ID).data.reverse) := by
    unfold saveTmpName
    rw [String.data_append, List.reverse_append]
    rfl
  unfold strHasSuffix
  rw [hd]
  have ht : List.take (".json.gz" : String).data.length
      ('p' :: 'm' :: 't' :: '.' :: (("chunk-" ++ r.ID).data.reverse)) =
      'p' :: 'm' :: 't' :: '.' :: List.take 4 (("chunk-" ++ r.ID).data.reverse) := rfl
  rw [ht]
  apply decide_eq_false
  intro hcontra
  rw [show (".json.gz" : String).data.reverse = ['z', 'g', '.', 'n', 'o', 's', 'j', '.']
    from rfl] at hcontra
  injection hcontra with h1 _
  exact absurd h1 (by decide)

theorem dirInsert_perm (k : String) (v : DirEntry) (l : Dir) (h : alookup k l = none) :
    List.Perm (dirInsert k v l) ((k, v) :: l) := by
  induction l with
  | nil => simp [dirInsert]
  | cons q t ih =>
    obtain ⟨k', v'⟩ := q
    by_cases hk : k = k'
    · simp [alookup, hk] at h
    · simp only [alookup, hk, if_false, if_neg] at h
      cases h1 : strLt k k'
      · have step : dirInsert k v ((k', v') :: t) = (k', v') :: dirInsert k v t := by
          simp [dirInsert, h1, hk]
        rw [step]
        exact ((ih h).cons (k', v')).trans (List.Perm.swap (k, v) (k', v') t)
      · have step : dirInsert k v ((k', v') :: t) = (k, v) :: (k', v') :: t := by
          simp [dirInsert, h1]
        rw [step]

theorem saveChunk_fresh_of_goodDir (r : ChunkRecord) (cs : ColdStorage)
    (hg : goodDir cs.dir) : alookup (saveTmpName r) cs.dir = none := by
  cases halt : alookup (saveTmpName r) cs.dir with
  | none => rfl
  | some v =>
    have hsuf := (hg _ (alookup_some_mem _ _ _ halt)).1
    simp [saveTmpName_not_gz r] at hsuf

theorem saveChunk_nsd_of_goodDir (r : ChunkRecord) (cs : ColdStorage)
    (hg : goodDir cs.dir) :
    alookup (r.ID ++ ".json.gz") cs.dir ≠ some DirEntry.subdir := by
  intro halt
  obtain ⟨fd, hfd⟩ := (hg _ (alookup_some_mem _ _ _ halt)).2
  cases hfd

theorem goodDir_empty : goodDir [] := by
  intro p hp
  cases hp

theorem goodDir_insert (d : Dir) (hg : goodDir d) (r : ChunkRecord) (fd : FileData) :
    goodDir (dirInsert (r.ID ++ ".json.gz") (DirEntry.file fd) d) := by
  intro p hp
  rcases mem_dirInsert hp with rfl | hp'
  · exact ⟨strHasSuffix_append r.ID ".json.gz", fd, rfl⟩
  · exact hg p hp'

theorem saveChunk_step (r : ChunkRecord) (cs : ColdStorage) (hg : goodDir cs.dir)
    (hyear : r.CreatedAt.year ≤ 9999) :
    (SaveChunk ioOk (saveTmpName r) r cs).1 = Except.ok () ∧
    (SaveChunk ioOk (saveTmpName r) r cs).2 =
      { cs with
        dir := dirInsert (r.ID ++ ".json.gz") (.file (.gzJson (encodeChunkRecord r))) cs.dir,
        refs := fun k => if k = r.SessionKey then cs.refs k ++ [⟨r.ID, r.Summary⟩]
                         else cs.refs k } := by
  have hok := saveChunk_ok_conditions (saveTmpName r) r cs hyear
    (saveChunk_nsd_of_goodDir r cs hg)
  exact ⟨hok, saveChunk_ok_state _ _ _ _ (saveChunk_fresh_of_goodDir r cs hg) hok⟩

theorem saveAll_spec : ∀ (rs : List ChunkRecord) (cs : ColdStorage),
    goodDir cs.dir → (∀ r ∈ rs, r.CreatedAt.year ≤ 9999) →
    (saveAll rs cs).dir =
      rs.foldl (fun d r => dirInsert (r.ID ++ ".json.gz")
        (.file (.gzJson (encodeChunkRecord r))) d) cs.dir ∧
    ∀ s, (saveAll rs cs).refs s = cs.refs s ++ refsOf rs s := by
  intro rs
  induction rs with
  | nil =>
    intro cs _ _
    exact ⟨rfl, fun s => by simp [saveAll, refsOf]⟩
  | cons r t ih =>
    intro cs hg hv
    obtain ⟨hok, hstate⟩ := saveChunk_step r cs hg (hv r (by simp))
    have hs : saveAll (r :: t) cs = saveAll t (SaveChunk ioOk (saveTmpName r) r cs).2 := rfl
    rw [hs, hstate]
    obtain ⟨ihd, ihr⟩ := ih
      { cs with
        dir := dirInsert (r.ID ++ ".json.gz") (.file (.gzJson (encodeChunkRecord r))) cs.dir,
        refs := fun k => if k = r.SessionKey then cs.refs k ++ [⟨r.ID, r.Summary⟩]
                         else cs.refs k }
      (goodDir_insert cs.dir hg r _) (fun r' hr' => hv r' (by simp [hr']))
    refine ⟨by rw [ihd]; rfl, fun s => ?_⟩
    rw [ihr s]
    by_cases hsk : r.SessionKey = s
    · subst hsk
      simp [refsOf, List.filter_cons]
    · have hne : s ≠ r.SessionKey := fun hk => hsk hk.symm
      simp [refsOf, List.filter_cons, hsk, hne]

theorem foldl_dirInsert_perm : ∀ (rs : List ChunkRecord) (d : Dir),
    (∀ r ∈ rs, alookup (r.ID ++ ".json.gz") d = none) →
    ((rs.map (fun r => r.ID ++ ".json.gz")).Nodup) →
    List.Perm
      (rs.foldl (fun d r => dirInsert (r.ID ++ ".json.gz")
        (.file (.gzJson (encodeChunkRecord r))) d) d)
      ((rs.map (fun r => ((r.ID ++ ".json.gz" : String),
        (DirEntry.file (.gzJson (encodeChunkRecord r)))))) ++ d) := by
  intro rs
  induction rs with
  | nil => intro d _ _; exact List.Perm.refl d
  | cons r t ih =>
    intro d hfresh hnodup
    simp only [List.map_cons, List.nodup_cons, List.mem_map] at hnodup
    simp only [List.foldl_cons, List.map_cons, List.cons_append]
    have hfr : alookup (r.ID ++ ".json.gz") d = none := hfresh r (by simp)
    have hfresh' : ∀ r' ∈ t, alookup (r'.ID ++ ".json.gz")
        (dirInsert (r.ID ++ ".json.gz") (.file (.gzJson (encodeChunkRecord r))) d) = none := by
      intro r' hr'
      have hne : (r'.ID ++ ".json.gz") ≠ (r.ID ++ ".json.gz") := by
        intro he
        exact hnodup.1 ⟨r', hr', he⟩
      rw [alookup_dirInsert_ne _ _ _ _ hne]
      exact hfresh r' (by simp [hr'])
    have hp1 := ih _ hfresh' hnodup.2
    refine hp1.trans ?_
    exact (List.Perm.append_left _ (dirInsert_perm _ _ _ hfr)).trans List.perm_middle

theorem foldl_rebuildStep_refs : ∀ (l : Dir)
    (acc : (String → Int) × (String → List ChunkRef)) (s : String),
    (l.foldl rebuildStep acc).2 s = acc.2 s ++ l.filterMap (entryRef s) := by
  intro l
  induction l with
  | nil => intro acc s; simp
  | cons p t ih =>
    intro acc s
    simp only [List.foldl_cons, List.filterMap_cons]
    obtain ⟨name, e⟩ := p
    cases e with
    | subdir => simpa [rebuildStep, entryRef] using ih acc s
    | file d =>
      cases hsuf : strHasSuffix name ".json.gz"
      · simpa [rebuildStep, entryRef, hsuf] using ih acc s
      · cases hdec : decodeFileData d with
        | none => simpa [rebuildStep, entryRef, hsuf, hdec] using ih acc s
        | some record =>
          by_cases hsk : record.SessionKey = s
          · have hss : s = record.SessionKey := hsk.symm
            simp only [rebuildStep, entryRef, hsuf, hdec, hsk, if_pos, ih]
            simp [hss]
          · have hss : s ≠ record.SessionKey := fun hk => hsk hk.symm
            simp only [rebuildStep, entryRef, hsuf, hdec, hsk, if_neg, ih]
            simp [hss, hsk]

theorem filterMap_ite {α β : Type} (l : List α) (p : α → Prop) [DecidablePred p] (f : α → β) :
    l.filterMap (fun a => if p a then some (f a) else none) =
      (l.filter (fun a => decide (p a))).map f := by
  induction l with
  | nil => rfl
  | cons a t ih =>
    by_cases hp : p a <;> simp [List.filterMap_cons, List.filter_cons, hp, ih]

theorem entryRef_chunkEntry (s : String) (r : ChunkRecord) (hv : ValidTime r.CreatedAt) :
    entryRef s (r.ID ++ ".json.gz", DirEntry.file (.gzJson (encodeChunkRecord r))) =
      if r.SessionKey = s then some ⟨r.ID, r.Summary⟩ else none := by
  unfold entryRef
  simp [strHasSuffix_append, decodeFileData, decodeChunkRecord_encodeChunkRecord r hv]

theorem nodup_gzNames (rs : List ChunkRecord) (h : (rs.map (fun r => r.ID)).Nodup) :
    (rs.map (fun r => r.ID ++ ".json.gz")).Nodup := by
  have heq : rs.map (fun r => r.ID ++ ".json.gz") =
      (rs.map (fun r => r.ID)).map (fun x => x ++ ".json.gz") := by
    simp [List.map_map, Function.comp]
  rw [heq]
  refine List.Nodup.map ?_ h
  intro a b hab
  apply String.ext
  have := congrArg String.data hab
  rw [String.data_append, String.data_append] at this
  exact List.append_cancel_right this

/-- C8: index rebuild recovers the writer's view — for every session key `s`,
a fresh `ColdStorage` built over a directory into which a previous instance
successfully saved records `rs` (distinct IDs, valid timestamps) yields
`ListRefs s` that is a permutation (hence equal as a set) of the writer's
`ListRefs s`, which itself is exactly the `{ID, Summary}` list of the records
saved under `s`; and `RebuildIndex` is idempotent: rebuilding an
already-rebuilt state reproduces that state. -/
theorem rebuild_recovers_writer_view (rs : List ChunkRecord) (s : String)
    (hids : (rs.map (fun r => r.ID)).Nodup)
    (hv : ∀ r ∈ rs, ValidTime r.CreatedAt) :
    List.Perm (ListRefs s (NewColdStorage false (saveAll rs (emptyStorage [])).dir))
      (ListRefs s (saveAll rs (emptyStorage []))) ∧
    ListRefs s (saveAll rs (emptyStorage [])) = refsOf rs s ∧
    (∀ cs st : ColdStorage, RebuildIndex false cs = Except.ok st →
      RebuildIndex false st = Except.ok st) := by
  have hyears : ∀ r ∈ rs, r.CreatedAt.year ≤ 9999 := fun r hr => (hv r hr).1
  obtain ⟨hdir, hrefs⟩ := saveAll_spec rs (emptyStorage []) goodDir_empty hyears
  have hwriter : ListRefs s (saveAll rs (emptyStorage [])) = refsOf rs s := by
    rw [ListRefs, hrefs s]
    rfl
  refine ⟨?_, hwriter, ?_⟩
  · have hnew : ListRefs s (NewColdStorage false (saveAll rs (emptyStorage [])).dir) =
        ((saveAll rs (emptyStorage [])).dir.foldl rebuildStep
          (fun _ => 0, fun _ => [])).2 s := rfl
    rw [hnew, foldl_rebuildStep_refs, hwriter, hdir]
    have hperm := foldl_dirInsert_perm rs [] (fun r _ => rfl) (nodup_gzNames rs hids)
    rw [List.append_nil] at hperm
    have hfm := hperm.filterMap (entryRef s)
    rw [List.filterMap_map] at hfm
    have hcongr : ∀ r ∈ rs,
        (entryRef s ∘ fun r => ((r.ID ++ ".json.gz" : String),
          DirEntry.file (.gzJson (encodeChunkRecord r)))) r =
        (fun r => if r.SessionKey = s then some (⟨r.ID, r.Summary⟩ : ChunkRef) else none) r :=
      fun r hr => entryRef_chunkEntry s r (hv r hr)
    rw [List.filterMap_congr hcongr] at hfm
    rw [filterMap_ite rs (fun r => r.SessionKey = s)
      (fun r => (⟨r.ID, r.Summary⟩ : ChunkRef))] at hfm
    exact (List.nil_append _) ▸ hfm
  · intro cs st h
    unfold RebuildIndex at h ⊢
    rw [if_neg (by simp)] at h ⊢
    injection h with h'
    rw [← h']

/-- Witness for C8 at the rebuild scenario's records: ids `test1234` and
`test5678` under `session1`. -/
theorem rebuild_recovers_writer_view_witness :
    List.Perm
      (ListRefs "session1" (NewColdStorage false
        (saveAll [⟨"test1234", "session1", (0, 0), ⟨2024, 1, 1, 12, 0, 0⟩, "Summary 1",
                    [⟨"user", "Hello"⟩]⟩,
                  ⟨"test5678", "session1", (0, 0), ⟨2024, 1, 1, 12, 0, 0⟩, "Summary 2",
                    [⟨"user", "World"⟩]⟩] (emptyStorage [])).dir))
      (ListRefs "session1"
        (saveAll [⟨"test1234", "session1", (0, 0), ⟨2024, 1, 1, 12, 0, 0⟩, "Summary 1",
                    [⟨"user", "Hello"⟩]⟩,
                  ⟨"test5678", "session1", (0, 0), ⟨2024, 1, 1, 12, 0, 0⟩, "Summary 2",
                    [⟨"user", "World"⟩]⟩] (emptyStorage []))) ∧
    ListRefs "session1"
      (saveAll [⟨"test1234", "session1", (0, 0), ⟨2024, 1, 1, 12, 0, 0⟩, "Summary 1",
                  [⟨"user", "Hello"⟩]⟩,
                ⟨"test5678", "session1", (0, 0), ⟨2024, 1, 1, 12, 0, 0⟩, "Summary 2",
                  [⟨"user", "World"⟩]⟩] (emptyStorage [])) =
      refsOf [⟨"test1234", "session1", (0, 0), ⟨2024, 1, 1, 12, 0, 0⟩, "Summary 1",
                [⟨"user", "Hello"⟩]⟩,
              ⟨"test5678", "session1", (0, 0), ⟨2024, 1, 1, 12, 0, 0⟩, "Summary 2",
                [⟨"user", "World"⟩]⟩] "session1" ∧
    (∀ cs st : ColdStorage, RebuildIndex false cs = Except.ok st →
      RebuildIndex false st = Except.ok st) :=
  rebuild_recovers_writer_view
    [⟨"test1234", "session1", (0, 0), ⟨2024, 1, 1, 12, 0, 0⟩, "Summary 1",
       [⟨"user", "Hello"⟩]⟩,
     ⟨"test5678", "session1", (0, 0), ⟨2024, 1, 1, 12, 0, 0⟩, "Summary 2",
       [⟨"user", "World"⟩]⟩] "session1" (by decide) (by decide)

end Picoclaw
